import Mathlib

/-!
Verification development for the fpm packaging pipe of goreleaser
(src/pipeline/fpm/fpm.go).  The pipe builds command-line argument
sequences for the external `fpm` packaging tool and fans the
invocations out over the cross product of configured output formats
and platform groups of Linux binaries.

The Go code is embedded shallowly: pure argument construction becomes
Lean functions over the configuration record; effectful collaborators
(template engine, temporary directories, process execution, PATH
lookup) become an explicit record of oracle functions, and the
observable effects of a run are recorded as an event trace.
-/

namespace FPM

/-- Kind tag of a pipeline artifact.  Modelled from the spec: the artifact
registry package (internal/artifact) is not under src/; the spec names the
kinds binary and linux-package, with other kinds possible in the pipeline. -/
inductive ArtifactType
  | Binary
  | LinuxPackage
  | Other
deriving DecidableEq, Repr

/-- A pipeline artifact.  Modelled from the spec: {kind tag, name,
filesystem path, OS, architecture, ARM variant}, matching the fields of
internal/artifact.Artifact that fpm.go reads and writes. -/
structure Artifact where
  Type' : ArtifactType
  Name : String
  Path : String
  Goos : String
  Goarch : String
  Goarm : String
deriving DecidableEq, Repr

/-- The FPM section of the configuration.  Modelled from the spec: the
config package is not under src/; these are exactly the fields fpm.go
reads (ctx.Config.FPM.*).  The Go `Files` field is a map; since map
iteration order is unspecified, it is embedded as an association list and
iterated in list order. -/
structure FPMConfig where
  Formats : List String
  NameTemplate : String
  Replacements : List (String × String)
  Bindir : String
  Vendor : String
  Homepage : String
  Maintainer : String
  Description : String
  License : String
  Dependencies : List String
  Conflicts : List String
  Files : List (String × String)
deriving DecidableEq, Repr

/-- The slice of the global configuration fpm.go reads.  Modelled from the
spec: the config package is not under src/. -/
structure Config where
  ProjectName : String
  Dist : String
  FPM : FPMConfig
deriving DecidableEq, Repr

/-- The slice of the pipeline context fpm.go reads.  Modelled from the
spec: the context package is not under src/; it supplies the global debug
flag, the parallelism bound, the version and the artifact collection. -/
structure Context where
  Config : Config
  Version : String
  Debug : Bool
  Parallelism : Nat
  Artifacts : List Artifact
deriving DecidableEq, Repr

/-- Path to gnu-tar on macOS when installed with homebrew (the constant
`gnuTarPath` of fpm.go). -/
def gnuTarPath : String := "/usr/local/opt/gnu-tar/libexec/gnubin"

/-- Embedding of `basicOptions` from fpm.go.  Each Go
`options = append(options, ...)` statement (conditional or in a loop)
becomes one let-rebinding, in source order: the fixed required tokens,
then `--debug` when ctx.Debug, then the optional metadata fields, one
`--depends` per dependency, one `--conflicts` per conflict, and finally
`--rpm-os linux` when the format is "rpm". -/
def basicOptions (ctx : Context) (workdir format arch file : String) : List String :=
  let options := ["--input-type", "dir",
    "--output-type", format,
    "--name", ctx.Config.ProjectName,
    "--version", ctx.Version,
    "--architecture", arch,
    "--package", file,
    "--force",
    "--workdir", workdir]
  let options := if ctx.Debug then options ++ ["--debug"] else options
  let options := if ctx.Config.FPM.Vendor ≠ "" then
    options ++ ["--vendor", ctx.Config.FPM.Vendor] else options
  let options := if ctx.Config.FPM.Homepage ≠ "" then
    options ++ ["--url", ctx.Config.FPM.Homepage] else options
  let options := if ctx.Config.FPM.Maintainer ≠ "" then
    options ++ ["--maintainer", ctx.Config.FPM.Maintainer] else options
  let options := if ctx.Config.FPM.Description ≠ "" then
    options ++ ["--description", ctx.Config.FPM.Description] else options
  let options := if ctx.Config.FPM.License ≠ "" then
    options ++ ["--license", ctx.Config.FPM.License] else options
  let options := ctx.Config.FPM.Dependencies.foldl
    (fun o dep => o ++ ["--depends", dep]) options
  let options := ctx.Config.FPM.Conflicts.foldl
    (fun o conflict => o ++ ["--conflicts", conflict]) options
  if format = "rpm" then options ++ ["--rpm-os", "linux"] else options

/-- Models Go's filepath.Join on two components: empty components are
dropped and the rest joined with "/" (path cleaning is not modelled; no
claim depends on it). -/
def joinPath (a b : String) : String :=
  if a = "" then b else if b = "" then a else a ++ "/" ++ b

/-- The full argument sequence `create` passes to the external process:
the basic options, then one `src=dest` mapping token per binary of the
group (destination under Bindir), then one mapping token per configured
extra file, as assembled in the two loops of `create` in fpm.go. -/
def fullOptions (ctx : Context) (workdir format arch file : String)
    (binaries : List Artifact) : List String :=
  basicOptions ctx workdir format arch file
    ++ binaries.map (fun b => b.Path ++ "=" ++ joinPath ctx.Config.FPM.Bindir b.Name)
    ++ ctx.Config.FPM.Files.map (fun sd => sd.1 ++ "=" ++ sd.2)

/-- The required token groups of `basicOptions` — each flag together with
its argument — in the fixed order the source emits them. -/
def requiredGroups (ctx : Context) (workdir format arch file : String) : List (List String) :=
  [["--input-type", "dir"],
   ["--output-type", format],
   ["--name", ctx.Config.ProjectName],
   ["--version", ctx.Version],
   ["--architecture", arch],
   ["--package", file],
   ["--force"],
   ["--workdir", workdir]]

/-- The conditional token groups of `basicOptions`, in emission order. -/
def optionalGroups (ctx : Context) (format : String) : List (List String) :=
  (if ctx.Debug then [["--debug"]] else [])
  ++ (if ctx.Config.FPM.Vendor ≠ "" then [["--vendor", ctx.Config.FPM.Vendor]] else [])
  ++ (if ctx.Config.FPM.Homepage ≠ "" then [["--url", ctx.Config.FPM.Homepage]] else [])
  ++ (if ctx.Config.FPM.Maintainer ≠ "" then [["--maintainer", ctx.Config.FPM.Maintainer]] else [])
  ++ (if ctx.Config.FPM.Description ≠ "" then [["--description", ctx.Config.FPM.Description]] else [])
  ++ (if ctx.Config.FPM.License ≠ "" then [["--license", ctx.Config.FPM.License]] else [])
  ++ ctx.Config.FPM.Dependencies.map (fun dep => ["--depends", dep])
  ++ ctx.Config.FPM.Conflicts.map (fun conflict => ["--conflicts", conflict])
  ++ (if format = "rpm" then [["--rpm-os", "linux"]] else [])

/-- `basicOptions` viewed as a sequence of token groups. -/
def basicOptionGroups (ctx : Context) (workdir format arch file : String) : List (List String) :=
  requiredGroups ctx workdir format arch file ++ optionalGroups ctx format

/-- The full argument sequence of `create` viewed as token groups: each
binary mapping token and each extra-file mapping token is its own
single-token group. -/
def fullOptionGroups (ctx : Context) (workdir format arch file : String)
    (binaries : List Artifact) : List (List String) :=
  basicOptionGroups ctx workdir format arch file
    ++ binaries.map (fun b => [b.Path ++ "=" ++ joinPath ctx.Config.FPM.Bindir b.Name])
    ++ ctx.Config.FPM.Files.map (fun sd => [sd.1 ++ "=" ++ sd.2])

/-- Models Go's strings.HasPrefix via the character lists of the strings. -/
def hasPrefix (s p : String) : Bool := p.data.isPrefixOf s.data

/-- Models Go's os.Getenv over an environment of "key=value" entries: the
value of the first entry for the key, or "" when there is none. -/
def getenv (environ : List String) (name : String) : String :=
  match environ.find? (fun e => hasPrefix e (name ++ "=")) with
  | some e => e.drop (name.length + 1)
  | none => ""

/-- Embedding of the environment set up by `cmd` in fpm.go: the Env slice
starts with a PATH entry prefixing the gnu-tar directory to the inherited
PATH value, then keeps every inherited entry that is not itself a PATH
entry, in order. -/
def cmdEnv (environ : List String) : List String :=
  ("PATH=" ++ gnuTarPath ++ ":" ++ getenv environ "PATH")
    :: environ.filter (fun e => ! hasPrefix e "PATH=")

/-- Error taxonomy of the pipe.  `ErrNoFPM` is the error value declared in
fpm.go; the remaining constructors stand for the error values `create`
propagates (template resolution failure, temp-dir creation failure, nonzero
process exit).  `emptyBinaries` models the out-of-range panic `create`
would hit on an empty group when reading `binaries[0]`. -/
inductive FpmError
  | ErrNoFPM
  | templateError
  | tempDirError
  | processFailed
  | emptyBinaries
deriving DecidableEq, Repr

/-- Observable effects of a run, in the order they happen. -/
inductive Event
  | taskStarted (format platform : String)
  | tempDirCreated (dir : String)
  | processRun (args : List String) (ok : Bool)
  | artifactAdded (a : Artifact)
deriving DecidableEq, Repr

/-- Oracles for the effectful collaborators of fpm.go.  Modelled from the
spec: the name templating engine (internal/filenametemplate.Apply over the
context, replacements and group binaries), the architecture label resolver
(internal/linux.Arch), ioutil.TempDir (keyed by the task's format and
platform so distinct tasks may get distinct outcomes), process execution
(exit status for a given argument list) and exec.LookPath are external to
src/; each is a function giving the outcome of the call. -/
structure Effects where
  applyTemplate : String → Context → List Artifact → Option String
  linuxArch : String → String
  tempDir : String → String → Option String
  runProcess : List String → Bool
  lookPath : Bool

/-- Embedding of `create` from fpm.go: resolve the package name from the
name template, create a temporary working directory, build the full
argument sequence, run the external process, and on success add one
linux-package artifact recording name+format, output path and the
OS/architecture/ARM variant of the group's first binary.  The result pairs
the Go return value with the trace of observable effects. -/
def create (eff : Effects) (ctx : Context) (format arch : String)
    (binaries : List Artifact) : Except FpmError Artifact × List Event :=
  match eff.applyTemplate ctx.Config.FPM.NameTemplate ctx binaries with
  | none => (.error .templateError, [])
  | some name =>
    match eff.tempDir format arch with
    | none => (.error .tempDirError, [])
    | some dir =>
      let path := joinPath ctx.Config.Dist name
      let file := path ++ "." ++ format
      let options := fullOptions ctx dir format arch file binaries
      if eff.runProcess options then
        match binaries with
        | [] => (.error .emptyBinaries, [.tempDirCreated dir, .processRun options true])
        | b :: _ =>
          let a : Artifact :=
            { Type' := .LinuxPackage
              Name := name ++ "." ++ format
              Path := file
              Goos := b.Goos
              Goarch := b.Goarch
              Goarm := b.Goarm }
          (.ok a, [.tempDirCreated dir, .processRun options true, .artifactAdded a])
      else
        (.error .processFailed, [.tempDirCreated dir, .processRun options false])

/-- Modelled from the spec: internal/artifact's Filter with
And(ByType(Binary), ByGoos("linux")) keeps the binaries built for the
Linux target OS, in collection order. -/
def filterLinuxBinaries (arts : List Artifact) : List Artifact :=
  arts.filter (fun a => a.Type' == ArtifactType.Binary && a.Goos == "linux")

/-- Modelled from the spec glossary: the platform of an artifact is the
tuple (OS, architecture, ARM variant); GroupByPlatform keys groups by it. -/
def platformKey (a : Artifact) : String := a.Goos ++ a.Goarch ++ a.Goarm

/-- Modelled from the spec: internal/artifact's GroupByPlatform groups the
filtered binaries by platform key (the Go map has no specified iteration
order; the embedding uses first-occurrence order, and no claim depends on
group order). -/
def groupByPlatform : List Artifact → List (String × List Artifact)
  | [] => []
  | a :: rest =>
    (platformKey a, a :: rest.filter (fun b => platformKey b == platformKey a))
      :: groupByPlatform (rest.filter (fun b => platformKey b != platformKey a))
termination_by l => l.length
decreasing_by
  simp only [List.length_cons]
  exact Nat.lt_succ_of_le (List.length_filter_le _ _)

/-- The (format, platform key, group binaries) triples enumerated by the
two nested loops of `doRun`: one task per configured format and platform
group. -/
def fpmTasks (ctx : Context) : List (String × String × List Artifact) :=
  ctx.Config.FPM.Formats.flatMap (fun format =>
    (groupByPlatform (filterLinuxBinaries ctx.Artifacts)).map
      (fun group => (format, group.1, group.2)))

/-- One scheduled task: the admission event, then the events of `create`
called with the architecture label resolved from the platform key. -/
def runTask (eff : Effects) (ctx : Context) (t : String × String × List Artifact) :
    Except FpmError Artifact × List Event :=
  let r := create eff ctx t.1 (eff.linuxArch t.2.1) t.2.2
  (r.1, .taskStarted t.1 t.2.1 :: r.2)

/-- The error errgroup.Wait reports: the first task error, or success when
every task succeeded.  The embedding is sequential, so "first" is first in
enumeration order; no claim depends on which failing task is reported. -/
def firstError : List (Except FpmError Artifact) → Except FpmError Unit
  | [] => .ok ()
  | .ok _ :: rest => firstError rest
  | .error e :: _ => .error e

/-- Embedding of `doRun` from fpm.go: run one task per (format, platform
group) pair; every task runs regardless of failures elsewhere (errgroup
does not cancel siblings).  Returns the aggregate error, the artifacts
appended by successful tasks, and the event trace.  The admission gate only
bounds simultaneity and does not change which tasks run, so it leaves no
trace in this sequential embedding. -/
def doRun (eff : Effects) (ctx : Context) :
    Except FpmError Unit × List Artifact × List Event :=
  let results := (fpmTasks ctx).map (runTask eff ctx)
  (firstError (results.map Prod.fst),
   results.filterMap (fun r => r.1.toOption),
   (results.map Prod.snd).flatten)

/-- Outcome of `Run`.  Modelled from the spec: pipeline.Skip produces a
dedicated skip signal the surrounding pipeline treats as a legitimate
no-op, distinct from failure. -/
inductive RunOutcome
  | ok
  | skipped (msg : String)
  | failed (e : FpmError)
deriving DecidableEq, Repr

/-- Embedding of `Run` from fpm.go: skip when no output formats are
configured, fail with ErrNoFPM when the fpm executable cannot be located
on the search path, and otherwise hand over to the orchestrator. -/
def Run (eff : Effects) (ctx : Context) : RunOutcome × List Artifact × List Event :=
  if ctx.Config.FPM.Formats = [] then
    (.skipped "no output formats configured", [], [])
  else if eff.lookPath then
    match doRun eff ctx with
    | (.ok _, arts, tr) => (.ok, arts, tr)
    | (.error e, arts, tr) => (.failed e, arts, tr)
  else
    (.failed .ErrNoFPM, [], [])

/-- A sample Linux binary artifact for concrete witnesses. -/
def sampleBinary : Artifact :=
  { Type' := .Binary, Name := "app", Path := "dist/linuxamd64/app",
    Goos := "linux", Goarch := "amd64", Goarm := "" }

/-- A second sample binary of the same platform. -/
def sampleBinary2 : Artifact :=
  { Type' := .Binary, Name := "app-helper", Path := "dist/linuxamd64/app-helper",
    Goos := "linux", Goarch := "amd64", Goarm := "" }

/-- A sample context: one configured format, two Linux binaries of one
platform, no optional metadata. -/
def sampleCtx : Context :=
  { Config :=
    { ProjectName := "app"
      Dist := "dist"
      FPM :=
      { Formats := ["deb"]
        NameTemplate := "tpl"
        Replacements := []
        Bindir := "/usr/local/bin"
        Vendor := ""
        Homepage := ""
        Maintainer := ""
        Description := ""
        License := ""
        Dependencies := []
        Conflicts := []
        Files := [] } }
    Version := "1.0.0"
    Debug := false
    Parallelism := 4
    Artifacts := [sampleBinary, sampleBinary2] }

/-- Sample effect oracles where every collaborator succeeds. -/
def sampleEffects : Effects :=
  { applyTemplate := fun _ _ _ => some "app_1.0.0_linux_amd64"
    linuxArch := fun _ => "amd64"
    tempDir := fun _ _ => some "/tmp/fpm123"
    runProcess := fun _ => true
    lookPath := true }

/-- Sample effect oracles where the external process exits nonzero. -/
def failEffects : Effects :=
  { sampleEffects with runProcess := fun _ => false }

/-- Sample effect oracles where fpm is not on the search path. -/
def noToolEffects : Effects :=
  { sampleEffects with lookPath := false }

/-- The sample context with no configured output formats. -/
def emptyFormatsCtx : Context :=
  { sampleCtx with Config :=
    { sampleCtx.Config with FPM := { sampleCtx.Config.FPM with Formats := [] } } }

/-- The sample context with an artifact collection holding no Linux
binaries (one darwin binary and one already-built package). -/
def noLinuxCtx : Context :=
  { sampleCtx with Artifacts :=
    [{ Type' := .Binary, Name := "app", Path := "dist/app_mac", Goos := "darwin",
       Goarch := "amd64", Goarm := "" },
     { Type' := .LinuxPackage, Name := "app.deb", Path := "dist/app.deb",
       Goos := "linux", Goarch := "amd64", Goarm := "" }] }

/-- Whether an event is a task admission. -/
def isTaskStarted : Event → Bool
  | .taskStarted _ _ => true
  | _ => false

/-- Whether an event is an artifact registration. -/
def isArtifactAdded : Event → Bool
  | .artifactAdded _ => true
  | _ => false

/-- The package artifact the sample task produces. -/
def sampleArtifact : Artifact :=
  { Type' := .LinuxPackage, Name := "app_1.0.0_linux_amd64.deb",
    Path := "dist/app_1.0.0_linux_amd64.deb", Goos := "linux",
    Goarch := "amd64", Goarm := "" }

theorem foldl_append_eq {α β : Type} (g : α → List β) :
    ∀ (l : List α) (init : List β),
      l.foldl (fun o d => o ++ g d) init = init ++ l.flatMap g
  | [], _ => by simp
  | a :: l, init => by
    simp only [List.foldl_cons, foldl_append_eq g l, List.flatMap_cons, List.append_assoc]

theorem append_ite {α : Type} (c : Prop) [Decidable c] (o x : List α) :
    (if c then o ++ x else o) = o ++ (if c then x else []) := by
  split <;> simp

theorem flatten_ite_singleton {α : Type} (c : Prop) [Decidable c] (g : List α) :
    (if c then [g] else ([] : List (List α))).flatten = (if c then g else []) := by
  split <;> simp

theorem flatten_map {α β : Type} (f : α → List β) (l : List α) :
    (l.map f).flatten = l.flatMap f := by
  induction l with
  | nil => simp
  | cons a l ih => simp [ih]

/-- The imperative token construction of `basicOptions` equals the
concatenation of its token groups. -/
theorem basicOptions_eq_join (ctx : Context) (workdir format arch file : String) :
    basicOptions ctx workdir format arch file =
      (basicOptionGroups ctx workdir format arch file).flatten := by
  unfold basicOptions
  simp only [foldl_append_eq, append_ite]
  simp only [basicOptionGroups, requiredGroups, optionalGroups, List.flatten_append,
    flatten_ite_singleton, flatten_map]
  simp [List.append_assoc]

theorem eq_of_mem_ite_singleton {α : Type} {c : Prop} [Decidable c] {x g : α}
    (h : g ∈ (if c then [x] else [])) : g = x := by
  split at h
  · simpa using h
  · simp at h

/-- Every conditional token group starts with one of the optional flags. -/
theorem mem_optionalGroups_head {ctx : Context} {format : String} {g : List String}
    (hg : g ∈ optionalGroups ctx format) :
    ∃ hd, g.head? = some hd ∧
      hd ∈ (["--debug", "--vendor", "--url", "--maintainer", "--description",
             "--license", "--depends", "--conflicts", "--rpm-os"] : List String) := by
  simp only [optionalGroups, List.mem_append, List.mem_map] at hg
  rcases hg with ((((((((h | h) | h) | h) | h) | h) | h) | h) | h)
  · exact (eq_of_mem_ite_singleton h) ▸ ⟨"--debug", rfl, by decide⟩
  · exact (eq_of_mem_ite_singleton h) ▸ ⟨"--vendor", rfl, by decide⟩
  · exact (eq_of_mem_ite_singleton h) ▸ ⟨"--url", rfl, by decide⟩
  · exact (eq_of_mem_ite_singleton h) ▸ ⟨"--maintainer", rfl, by decide⟩
  · exact (eq_of_mem_ite_singleton h) ▸ ⟨"--description", rfl, by decide⟩
  · exact (eq_of_mem_ite_singleton h) ▸ ⟨"--license", rfl, by decide⟩
  · obtain ⟨d, _, rfl⟩ := h
    exact ⟨"--depends", rfl, by decide⟩
  · obtain ⟨d, _, rfl⟩ := h
    exact ⟨"--conflicts", rfl, by decide⟩
  · exact (eq_of_mem_ite_singleton h) ▸ ⟨"--rpm-os", rfl, by decide⟩

/-- A group whose head is none of the optional flags never occurs among the
conditional groups. -/
theorem count_optionalGroups_eq_zero (ctx : Context) (format : String)
    (g : List String) (hd : String) (hh : g.head? = some hd)
    (hne : hd ∉ (["--debug", "--vendor", "--url", "--maintainer", "--description",
                  "--license", "--depends", "--conflicts", "--rpm-os"] : List String)) :
    (optionalGroups ctx format).count g = 0 :=
  List.count_eq_zero.mpr fun hmem => by
    obtain ⟨hd2, hh2, hm2⟩ := mem_optionalGroups_head hmem
    rw [hh] at hh2
    exact hne (Option.some.inj hh2 ▸ hm2)

/-- C1: For every package specification, the Argument Builder output
(`basicOptions`, viewed as token groups whose concatenation is exactly the
emitted argument list) contains each required token group exactly once —
input-type=dir, output-type=<format>, name, version, architecture,
package=<output file>, force, workdir — and these groups appear in that
fixed relative order at the start of the argument sequence. -/
theorem basicOptions_required_once (ctx : Context) (workdir format arch file : String) :
    basicOptions ctx workdir format arch file =
      (basicOptionGroups ctx workdir format arch file).flatten ∧
    (basicOptionGroups ctx workdir format arch file).take 8 =
      [["--input-type", "dir"], ["--output-type", format],
       ["--name", ctx.Config.ProjectName], ["--version", ctx.Version],
       ["--architecture", arch], ["--package", file], ["--force"],
       ["--workdir", workdir]] ∧
    (basicOptionGroups ctx workdir format arch file).count ["--input-type", "dir"] = 1 ∧
    (basicOptionGroups ctx workdir format arch file).count ["--output-type", format] = 1 ∧
    (basicOptionGroups ctx workdir format arch file).count ["--name", ctx.Config.ProjectName] = 1 ∧
    (basicOptionGroups ctx workdir format arch file).count ["--version", ctx.Version] = 1 ∧
    (basicOptionGroups ctx workdir format arch file).count ["--architecture", arch] = 1 ∧
    (basicOptionGroups ctx workdir format arch file).count ["--package", file] = 1 ∧
    (basicOptionGroups ctx workdir format arch file).count ["--force"] = 1 ∧
    (basicOptionGroups ctx workdir format arch file).count ["--workdir", workdir] = 1 := by
  refine ⟨basicOptions_eq_join ctx workdir format arch file, ?_, ?_, ?_, ?_, ?_, ?_, ?_, ?_, ?_⟩
  · rw [basicOptionGroups]
    exact List.take_left' rfl
  · rw [basicOptionGroups, List.count_append,
      count_optionalGroups_eq_zero ctx format ["--input-type", "dir"] "--input-type" rfl (by decide)]
    simp [requiredGroups, List.count_cons]
  · rw [basicOptionGroups, List.count_append,
      count_optionalGroups_eq_zero ctx format ["--output-type", format] "--output-type" rfl (by decide)]
    simp [requiredGroups, List.count_cons]
  · rw [basicOptionGroups, List.count_append,
      count_optionalGroups_eq_zero ctx format ["--name", ctx.Config.ProjectName] "--name" rfl (by decide)]
    simp [requiredGroups, List.count_cons]
  · rw [basicOptionGroups, List.count_append,
      count_optionalGroups_eq_zero ctx format ["--version", ctx.Version] "--version" rfl (by decide)]
    simp [requiredGroups, List.count_cons]
  · rw [basicOptionGroups, List.count_append,
      count_optionalGroups_eq_zero ctx format ["--architecture", arch] "--architecture" rfl (by decide)]
    simp [requiredGroups, List.count_cons]
  · rw [basicOptionGroups, List.count_append,
      count_optionalGroups_eq_zero ctx format ["--package", file] "--package" rfl (by decide)]
    simp [requiredGroups, List.count_cons]
  · rw [basicOptionGroups, List.count_append,
      count_optionalGroups_eq_zero ctx format ["--force"] "--force" rfl (by decide)]
    simp [requiredGroups, List.count_cons]
  · rw [basicOptionGroups, List.count_append,
      count_optionalGroups_eq_zero ctx format ["--workdir", workdir] "--workdir" rfl (by decide)]
    simp [requiredGroups, List.count_cons]

/-- Closed form of the imperative token construction: required tokens, then
each conditional part exactly when its field is non-empty, in source
order. -/
theorem basicOptions_flat (ctx : Context) (workdir format arch file : String) :
    basicOptions ctx workdir format arch file =
      ["--input-type", "dir", "--output-type", format, "--name", ctx.Config.ProjectName,
       "--version", ctx.Version, "--architecture", arch, "--package", file, "--force",
       "--workdir", workdir]
      ++ (if ctx.Debug then ["--debug"] else [])
      ++ (if ctx.Config.FPM.Vendor ≠ "" then ["--vendor", ctx.Config.FPM.Vendor] else [])
      ++ (if ctx.Config.FPM.Homepage ≠ "" then ["--url", ctx.Config.FPM.Homepage] else [])
      ++ (if ctx.Config.FPM.Maintainer ≠ "" then ["--maintainer", ctx.Config.FPM.Maintainer] else [])
      ++ (if ctx.Config.FPM.Description ≠ "" then ["--description", ctx.Config.FPM.Description] else [])
      ++ (if ctx.Config.FPM.License ≠ "" then ["--license", ctx.Config.FPM.License] else [])
      ++ ctx.Config.FPM.Dependencies.flatMap (fun dep => ["--depends", dep])
      ++ ctx.Config.FPM.Conflicts.flatMap (fun conflict => ["--conflicts", conflict])
      ++ (if format = "rpm" then ["--rpm-os", "linux"] else []) := by
  unfold basicOptions
  simp only [foldl_append_eq, append_ite]

/-- C2: For every package specification, each optional metadata token group
appears in the Argument Builder output if and only if its source field is
non-empty, in the fixed order vendor, homepage (as --url), maintainer,
description, license, followed by one --depends token per dependency entry
in input order and one --conflicts token per conflict entry in input order;
and the --debug flag appears if and only if global debug mode is enabled. -/
theorem basicOptions_optional_tokens (ctx : Context) (workdir format arch file : String) :
    basicOptions ctx workdir format arch file =
      ["--input-type", "dir", "--output-type", format, "--name", ctx.Config.ProjectName,
       "--version", ctx.Version, "--architecture", arch, "--package", file, "--force",
       "--workdir", workdir]
      ++ (if ctx.Debug then ["--debug"] else [])
      ++ (if ctx.Config.FPM.Vendor ≠ "" then ["--vendor", ctx.Config.FPM.Vendor] else [])
      ++ (if ctx.Config.FPM.Homepage ≠ "" then ["--url", ctx.Config.FPM.Homepage] else [])
      ++ (if ctx.Config.FPM.Maintainer ≠ "" then ["--maintainer", ctx.Config.FPM.Maintainer] else [])
      ++ (if ctx.Config.FPM.Description ≠ "" then ["--description", ctx.Config.FPM.Description] else [])
      ++ (if ctx.Config.FPM.License ≠ "" then ["--license", ctx.Config.FPM.License] else [])
      ++ ctx.Config.FPM.Dependencies.flatMap (fun dep => ["--depends", dep])
      ++ ctx.Config.FPM.Conflicts.flatMap (fun conflict => ["--conflicts", conflict])
      ++ (if format = "rpm" then ["--rpm-os", "linux"] else []) :=
  basicOptions_flat ctx workdir format arch file

/-- C3 counterexample: with format "rpm" and one binary in the group, the
full argument sequence passed to the process ends with the binary mapping
token, not with the OS-override pair — `create` appends the mapping tokens
after `basicOptions`, whose tail the pair is. -/
theorem fullOptions_rpm_not_suffix :
    ¬ List.IsSuffix ["--rpm-os", "linux"]
      (fullOptions sampleCtx "/tmp/fpm123" "rpm" "amd64"
        "dist/app_1.0.0_linux_amd64.rpm" [sampleBinary]) := by
  decide

/-- The OS-override pair occurs among the conditional groups only when the
format is "rpm". -/
theorem rpm_of_mem_optionalGroups {ctx : Context} {format : String}
    (h : ["--rpm-os", "linux"] ∈ optionalGroups ctx format) : format = "rpm" := by
  simp only [optionalGroups, List.mem_append, List.mem_map] at h
  rcases h with ((((((((h | h) | h) | h) | h) | h) | h) | h) | h)
  · exact absurd (eq_of_mem_ite_singleton h) (by decide)
  · have := eq_of_mem_ite_singleton h
    simp at this
  · have := eq_of_mem_ite_singleton h
    simp at this
  · have := eq_of_mem_ite_singleton h
    simp at this
  · have := eq_of_mem_ite_singleton h
    simp at this
  · have := eq_of_mem_ite_singleton h
    simp at this
  · obtain ⟨d, _, hde⟩ := h
    simp at hde
  · obtain ⟨d, _, hde⟩ := h
    simp at hde
  · by_cases hf : format = "rpm"
    · exact hf
    · rw [if_neg hf] at h
      simp at h

/-- C3 (amended): when the format equals "rpm" the Argument Builder portion
(`basicOptions`) of the sequence ends with the token pair --rpm-os linux;
the pair occurs among the token groups of the full argument sequence if and
only if the format is "rpm", so for every other format it is absent. -/
theorem rpm_os_pair_iff (ctx : Context) (workdir format arch file : String)
    (binaries : List Artifact) :
    (format = "rpm" →
      List.IsSuffix ["--rpm-os", "linux"] (basicOptions ctx workdir format arch file)) ∧
    (["--rpm-os", "linux"] ∈ fullOptionGroups ctx workdir format arch file binaries ↔
      format = "rpm") := by
  constructor
  · intro h
    rw [basicOptions_flat, h, if_pos rfl]
    exact List.suffix_append _ _
  · constructor
    · intro h
      simp only [fullOptionGroups, basicOptionGroups, List.mem_append, List.mem_map] at h
      rcases h with (((h | h) | h) | h)
      · simp [requiredGroups] at h
      · exact rpm_of_mem_optionalGroups h
      · obtain ⟨b, _, hb⟩ := h
        simp at hb
      · obtain ⟨sd, _, hsd⟩ := h
        simp at hsd
    · intro h
      simp [fullOptionGroups, basicOptionGroups, optionalGroups, h]

/-- Witness for the amended C3: the pair ends the builder output of a
concrete "rpm" invocation, and the iff evaluated at format "deb" with one
binary shows absence. -/
theorem rpm_os_pair_iff_witness :
    List.IsSuffix ["--rpm-os", "linux"]
      (basicOptions sampleCtx "/tmp/fpm123" "rpm" "amd64" "dist/app.rpm") ∧
    (["--rpm-os", "linux"] ∈
        fullOptionGroups sampleCtx "/tmp/fpm123" "deb" "amd64" "dist/app.deb" [sampleBinary] ↔
      "deb" = "rpm") :=
  ⟨(rpm_os_pair_iff sampleCtx "/tmp/fpm123" "rpm" "amd64" "dist/app.rpm" []).1 rfl,
   (rpm_os_pair_iff sampleCtx "/tmp/fpm123" "deb" "amd64" "dist/app.deb" [sampleBinary]).2⟩

theorem hasPrefix_append (p rest : String) : hasPrefix (p ++ rest) p = true := by
  simp only [hasPrefix, String.data_append, List.isPrefixOf_iff_prefix]
  exact List.prefix_append _ _

/-- C8: The environment passed to every process invocation is a PATH entry
equal to the fixed gnu-tar directory, a colon, and the original PATH value,
followed by every other inherited entry unchanged and in order; inherited
PATH entries are dropped, so exactly one entry of the result is a PATH
entry. -/
theorem cmdEnv_path_unique (environ : List String) :
    cmdEnv environ =
      ("PATH=" ++ gnuTarPath ++ ":" ++ getenv environ "PATH")
        :: environ.filter (fun e => ! hasPrefix e "PATH=") ∧
    (cmdEnv environ).countP (fun e => hasPrefix e "PATH=") = 1 := by
  refine ⟨rfl, ?_⟩
  rw [cmdEnv, List.countP_cons_of_pos]
  · have h0 : (environ.filter (fun e => ! hasPrefix e "PATH=")).countP
        (fun e => hasPrefix e "PATH=") = 0 := by
      simp [List.countP_eq_zero, List.mem_filter]
    rw [h0]
  · rw [String.append_assoc, String.append_assoc]
    exact hasPrefix_append _ _

/-- C5: With at least one configured format and the fpm executable absent
from the search path, `Run` returns ErrNoFPM with an empty event trace — in
particular no task has been admitted and no temporary directory has been
created — and no artifact has been appended. -/
theorem Run_noFPM (eff : Effects) (ctx : Context)
    (h1 : ctx.Config.FPM.Formats ≠ []) (h2 : eff.lookPath = false) :
    Run eff ctx = (RunOutcome.failed FpmError.ErrNoFPM, [], []) := by
  rw [Run, if_neg h1]
  simp [h2]

/-- Witness for C5 at the sample context with the tool missing. -/
theorem Run_noFPM_witness :
    Run noToolEffects sampleCtx = (RunOutcome.failed FpmError.ErrNoFPM, [], []) :=
  Run_noFPM noToolEffects sampleCtx (by decide) rfl

/-- C6: With zero configured formats, `Run` returns the skip signal — a
marker distinct from every failure outcome — with no tasks and no
artifacts, and its result does not depend on the effect oracles at all (in
particular the tool lookup is never consulted). -/
theorem Run_skip (eff : Effects) (ctx : Context)
    (h : ctx.Config.FPM.Formats = []) :
    Run eff ctx = (RunOutcome.skipped "no output formats configured", [], []) ∧
    (∀ eff2 : Effects, Run eff2 ctx = Run eff ctx) ∧
    (∀ e, (Run eff ctx).1 ≠ RunOutcome.failed e) := by
  refine ⟨by simp [Run, h], fun eff2 => by simp [Run, h], fun e => by simp [Run, h]⟩

/-- Witness for C6 at the sample context with no formats configured. -/
theorem Run_skip_witness :
    Run sampleEffects emptyFormatsCtx =
      (RunOutcome.skipped "no output formats configured", [], []) :=
  (Run_skip sampleEffects emptyFormatsCtx rfl).1

/-- C7: If filtering the artifact collection to Linux binaries yields
nothing, no task is scheduled and the orchestrator returns success with an
empty artifact list and an empty trace. -/
theorem doRun_no_binaries (eff : Effects) (ctx : Context)
    (h : filterLinuxBinaries ctx.Artifacts = []) :
    fpmTasks ctx = [] ∧ doRun eff ctx = (Except.ok (), [], []) := by
  have ht : fpmTasks ctx = [] := by
    rw [fpmTasks, h]
    simp [groupByPlatform]
  exact ⟨ht, by rw [doRun, ht]; rfl⟩

/-- Witness for C7 at the sample context whose artifacts hold no Linux
binary. -/
theorem doRun_no_binaries_witness :
    doRun sampleEffects noLinuxCtx = (Except.ok (), [], []) :=
  (doRun_no_binaries sampleEffects noLinuxCtx (by decide)).2

theorem length_flatMap_const {α β : Type} (f : α → List β) (k : Nat) (l : List α)
    (h : ∀ a, (f a).length = k) : (l.flatMap f).length = l.length * k := by
  induction l with
  | nil => simp
  | cons a t ih =>
    simp [List.flatMap_cons, ih, h, Nat.succ_mul, Nat.add_comm]

/-- The number of platform groups is the number of distinct platform keys
among the grouped artifacts. -/
theorem groupByPlatform_length (l : List Artifact) :
    (groupByPlatform l).length = (l.map platformKey).toFinset.card := by
  induction l using groupByPlatform.induct with
  | case1 => simp [groupByPlatform]
  | case2 a rest ih =>
    rw [groupByPlatform]
    simp only [List.length_cons, List.map_cons, List.toFinset_cons]
    rw [ih]
    have hset : ((rest.filter (fun b => platformKey b != platformKey a)).map
          platformKey).toFinset
        = (rest.map platformKey).toFinset.erase (platformKey a) := by
      ext x
      simp only [List.mem_toFinset, List.mem_map, List.mem_filter, bne_iff_ne,
        Finset.mem_erase]
      constructor
      · rintro ⟨b, ⟨hb, hne⟩, rfl⟩
        exact ⟨hne, b, hb, rfl⟩
      · rintro ⟨hne, b, hb, rfl⟩
        exact ⟨b, ⟨hb, hne⟩, rfl⟩
    rw [hset]
    by_cases hk : platformKey a ∈ (rest.map platformKey).toFinset
    · rw [Finset.insert_eq_self.mpr hk, Finset.card_erase_of_mem hk]
      have hpos : 0 < (rest.map platformKey).toFinset.card :=
        Finset.card_pos.mpr ⟨_, hk⟩
      omega
    · rw [Finset.erase_eq_of_not_mem hk, Finset.card_insert_of_not_mem hk]

/-- Case analysis on the result and trace of `create`: an early error with
no events, a failed process run, a successful run over an empty group (the
modelled panic), or a successful run registering exactly the returned
artifact last. -/
theorem create_trace_cases (eff : Effects) (ctx : Context) (format arch : String)
    (binaries : List Artifact) :
    ((create eff ctx format arch binaries).2 = [] ∧
      ∃ e, (create eff ctx format arch binaries).1 = Except.error e) ∨
    (∃ dir opts,
      (create eff ctx format arch binaries).2 =
        [Event.tempDirCreated dir, Event.processRun opts false] ∧
      (create eff ctx format arch binaries).1 = Except.error FpmError.processFailed) ∨
    (∃ dir opts,
      (create eff ctx format arch binaries).2 =
        [Event.tempDirCreated dir, Event.processRun opts true] ∧
      (create eff ctx format arch binaries).1 = Except.error FpmError.emptyBinaries) ∨
    (∃ dir opts a,
      (create eff ctx format arch binaries).2 =
        [Event.tempDirCreated dir, Event.processRun opts true, Event.artifactAdded a] ∧
      (create eff ctx format arch binaries).1 = Except.ok a) := by
  rcases hA : eff.applyTemplate ctx.Config.FPM.NameTemplate ctx binaries with _ | name
  · exact Or.inl ⟨by simp [create, hA], FpmError.templateError, by simp [create, hA]⟩
  rcases hT : eff.tempDir format arch with _ | dir
  · exact Or.inl ⟨by simp [create, hA, hT], FpmError.tempDirError,
      by simp [create, hA, hT]⟩
  rcases hR : eff.runProcess (fullOptions ctx dir format arch
      (joinPath ctx.Config.Dist name ++ "." ++ format) binaries) with _ | _
  · exact Or.inr (Or.inl ⟨dir,
      fullOptions ctx dir format arch
        (joinPath ctx.Config.Dist name ++ "." ++ format) binaries,
      by simp [create, hA, hT, hR], by simp [create, hA, hT, hR]⟩)
  rcases binaries with _ | ⟨b, rest⟩
  · exact Or.inr (Or.inr (Or.inl ⟨dir,
      fullOptions ctx dir format arch
        (joinPath ctx.Config.Dist name ++ "." ++ format) [],
      by simp [create, hA, hT, hR], by simp [create, hA, hT, hR]⟩))
  · exact Or.inr (Or.inr (Or.inr ⟨dir,
      fullOptions ctx dir format arch
        (joinPath ctx.Config.Dist name ++ "." ++ format) (b :: rest),
      { Type' := .LinuxPackage, Name := name ++ "." ++ format,
        Path := joinPath ctx.Config.Dist name ++ "." ++ format,
        Goos := b.Goos, Goarch := b.Goarch, Goarm := b.Goarm },
      by simp [create, hA, hT, hR], by simp [create, hA, hT, hR]⟩))

/-- Helper: `create` never emits a task admission event. -/
theorem create_countP_taskStarted (eff : Effects) (ctx : Context) (format arch : String)
    (binaries : List Artifact) :
    ((create eff ctx format arch binaries).2).countP isTaskStarted = 0 := by
  rcases create_trace_cases eff ctx format arch binaries with
    ⟨h, -⟩ | ⟨d, o, h, -⟩ | ⟨d, o, h, -⟩ | ⟨d, o, a, h, -⟩ <;>
    rw [h] <;> rfl

/-- C4: With N configured formats and M distinct platforms among the
filtered Linux binaries, exactly N×M packaging tasks are scheduled (one
admission event each), the artifacts added by the orchestrator are exactly
the results of the successful tasks, and a task over a non-empty binary
group that succeeds produces exactly one linux-package artifact whose name
is the resolved template name plus "." plus the format, whose path is that
name under the output directory, and whose OS, architecture and ARM
variant come from the group's first binary. -/
theorem doRun_tasks_and_artifacts (eff : Effects) (ctx : Context) :
    (fpmTasks ctx).length =
        ctx.Config.FPM.Formats.length *
          ((filterLinuxBinaries ctx.Artifacts).map platformKey).toFinset.card ∧
    ((doRun eff ctx).2.2).countP isTaskStarted = (fpmTasks ctx).length ∧
    (doRun eff ctx).2.1 =
        (fpmTasks ctx).filterMap (fun t => ((runTask eff ctx t).1).toOption) ∧
    ∀ format arch b rest a,
      (create eff ctx format arch (b :: rest)).1 = Except.ok a →
        ((create eff ctx format arch (b :: rest)).2).countP isArtifactAdded = 1 ∧
        a.Type' = ArtifactType.LinuxPackage ∧
        (∃ name,
          eff.applyTemplate ctx.Config.FPM.NameTemplate ctx (b :: rest) = some name ∧
          a.Name = name ++ "." ++ format ∧
          a.Path = joinPath ctx.Config.Dist name ++ "." ++ format) ∧
        a.Goos = b.Goos ∧ a.Goarch = b.Goarch ∧ a.Goarm = b.Goarm := by
  refine ⟨?_, ?_, ?_, ?_⟩
  · rw [fpmTasks, ← groupByPlatform_length]
    exact length_flatMap_const _ _ _ (fun _ => List.length_map _ _)
  · rw [doRun]
    simp only [List.map_map]
    generalize fpmTasks ctx = ts
    induction ts with
    | nil => rfl
    | cons t ts ih =>
      simp only [List.map_cons, List.flatten_cons, List.countP_append,
        List.length_cons, Function.comp_apply]
      have h1 : ((runTask eff ctx t).2).countP isTaskStarted = 1 := by
        simp [runTask, List.countP_cons, isTaskStarted,
          create_countP_taskStarted eff ctx t.1 (eff.linuxArch t.2.1) t.2.2]
      rw [h1, ih]
      omega
  · rw [doRun]
    simp only [List.filterMap_map]
    rfl
  · intro format arch b rest a h
    rcases hA : eff.applyTemplate ctx.Config.FPM.NameTemplate ctx (b :: rest)
      with _ | name
    · unfold create at h
      rw [hA] at h
      exact absurd h (by simp)
    rcases hT : eff.tempDir format arch with _ | dir
    · unfold create at h
      rw [hA, hT] at h
      exact absurd h (by simp)
    rcases hR : eff.runProcess (fullOptions ctx dir format arch
        (joinPath ctx.Config.Dist name ++ "." ++ format) (b :: rest)) with _ | _
    · unfold create at h
      rw [hA, hT] at h
      simp only [hR, Bool.false_eq_true, if_false] at h
      exact absurd h (by simp)
    · unfold create at h ⊢
      rw [hA, hT] at h ⊢
      simp only [hR, if_true] at h ⊢
      simp only [Except.ok.injEq] at h
      subst h
      exact ⟨rfl, rfl, ⟨name, rfl, rfl, rfl⟩, rfl, rfl, rfl⟩

/-- Witness for C4: the sample task (format "deb", two binaries of one
platform) succeeds and the produced artifact has the claimed kind, name,
path and platform fields. -/
theorem doRun_tasks_and_artifacts_witness :
    sampleArtifact.Type' = ArtifactType.LinuxPackage ∧
    (∃ name,
      sampleEffects.applyTemplate sampleCtx.Config.FPM.NameTemplate sampleCtx
        [sampleBinary, sampleBinary2] = some name ∧
      sampleArtifact.Name = name ++ "." ++ "deb" ∧
      sampleArtifact.Path = joinPath sampleCtx.Config.Dist name ++ "." ++ "deb") ∧
    sampleArtifact.Goos = sampleBinary.Goos ∧
    sampleArtifact.Goarch = sampleBinary.Goarch ∧
    sampleArtifact.Goarm = sampleBinary.Goarm :=
  ((doRun_tasks_and_artifacts sampleEffects sampleCtx).2.2.2 "deb" "amd64"
    sampleBinary [sampleBinary2] sampleArtifact rfl).2

/-- C10: A task whose `create` returns an error registers no artifact; an
artifact is registered only as the last event of a task whose external
process ran successfully, and it is exactly the returned artifact. -/
theorem create_error_no_artifact (eff : Effects) (ctx : Context)
    (format arch : String) (binaries : List Artifact) :
    (∀ e, (create eff ctx format arch binaries).1 = Except.error e →
      ∀ a, Event.artifactAdded a ∉ (create eff ctx format arch binaries).2) ∧
    (∀ a, Event.artifactAdded a ∈ (create eff ctx format arch binaries).2 →
      (create eff ctx format arch binaries).1 = Except.ok a ∧
      ∃ pre, (create eff ctx format arch binaries).2 =
          pre ++ [Event.artifactAdded a] ∧
        ∃ opts, Event.processRun opts true ∈ pre) := by
  rcases create_trace_cases eff ctx format arch binaries with
    ⟨h2, e0, h1⟩ | ⟨d, o, h2, h1⟩ | ⟨d, o, h2, h1⟩ | ⟨d, o, a0, h2, h1⟩
  · refine ⟨fun e he a => by rw [h2]; simp, fun a ha => ?_⟩
    rw [h2] at ha
    simp at ha
  · refine ⟨fun e he a => by rw [h2]; simp, fun a ha => ?_⟩
    rw [h2] at ha
    simp at ha
  · refine ⟨fun e he a => by rw [h2]; simp, fun a ha => ?_⟩
    rw [h2] at ha
    simp at ha
  · refine ⟨fun e he a => ?_, fun a ha => ?_⟩
    · rw [h1] at he
      simp at he
    · rw [h2] at ha
      simp only [List.mem_cons, List.not_mem_nil, or_false] at ha
      rcases ha with ha | ha | ha
      · exact absurd ha (by simp)
      · exact absurd ha (by simp)
      · obtain rfl : a = a0 := by
          simpa using ha
        exact ⟨h1, [Event.tempDirCreated d, Event.processRun o true],
          by rw [h2]; rfl, o, by simp⟩

/-- Witness for C10: a failing sample task (process exits nonzero) adds no
artifact; the succeeding sample task returns exactly the artifact its trace
registers last, after a successful process run. -/
theorem create_error_no_artifact_witness :
    Event.artifactAdded sampleArtifact ∉
      (create failEffects sampleCtx "deb" "amd64" [sampleBinary]).2 ∧
    ((create sampleEffects sampleCtx "deb" "amd64"
        [sampleBinary, sampleBinary2]).1 = Except.ok sampleArtifact ∧
      ∃ pre, (create sampleEffects sampleCtx "deb" "amd64"
          [sampleBinary, sampleBinary2]).2 =
          pre ++ [Event.artifactAdded sampleArtifact] ∧
        ∃ opts, Event.processRun opts true ∈ pre) :=
  ⟨(create_error_no_artifact failEffects sampleCtx "deb" "amd64" [sampleBinary]).1
      FpmError.processFailed rfl sampleArtifact,
   (create_error_no_artifact sampleEffects sampleCtx "deb" "amd64"
      [sampleBinary, sampleBinary2]).2 sampleArtifact (by decide)⟩

end FPM
